import Mathlib

/-!
Verification development for the second-brain daemon core: the mode
transition engine (`src/daemon/src/state/machine.rs`), the modifier
predicates (`src/daemon/src/hotkey/keys.rs`), the IPC protocol types
(`src/daemon/src/ipc/protocol.rs`, `src/daemon/src/events/mod.rs`) and the
IPC server connection loop (`src/daemon/src/ipc/server.rs`), embedded
shallowly: `std::time::Instant` becomes a `Nat` timestamp supplied to each
call, the broadcast sender becomes a returned list of emitted events, and
the async byte stream becomes a `List Nat` of bytes.
-/

set_option maxRecDepth 4000

namespace SecondBrain

/-- Embeds `ModifierState` from `hotkey/keys.rs`: three independent booleans
for the tracked modifier keys. -/
structure ModifierState where
  control : Bool
  option : Bool
  command : Bool
deriving DecidableEq, Repr

/-- Embeds `ModifierState::default()` (Rust `Default` derive: all `false`). -/
instance : Inhabited ModifierState := ⟨⟨false, false, false⟩⟩

/-- Embeds `ModifierState::is_empty`. -/
def ModifierState.is_empty (s : ModifierState) : Bool :=
  !s.control && !s.option && !s.command

/-- Embeds `ModifierState::is_control_only`. -/
def ModifierState.is_control_only (s : ModifierState) : Bool :=
  s.control && !s.option && !s.command

/-- Embeds `ModifierState::is_control_option`. -/
def ModifierState.is_control_option (s : ModifierState) : Bool :=
  s.control && s.option && !s.command

/-- Embeds `ModifierState::is_control_command`. -/
def ModifierState.is_control_command (s : ModifierState) : Bool :=
  s.control && s.command && !s.option

/-- Embeds `State` from `state/machine.rs`. -/
inductive State where
  | Idle
  | DictationActive
  | IntelligentActive
  | AgentActive
deriving DecidableEq, Repr

/-- Embeds `StateEvent` from `events/mod.rs`; `u64` durations become `Nat`. -/
inductive StateEvent where
  | DictationStarted
  | DictationComplete (duration_ms : Nat)
  | IntelligentStarted
  | IntelligentRequestComplete (duration_ms : Nat)
  | AgentModeEntered
  | AgentModeExited (duration_ms : Nat)
  | AudioCaptureStarted
  | AudioCaptureStopped
deriving DecidableEq, Repr

/-- Embeds the `StateMachine` struct from `state/machine.rs`. The
`event_tx` broadcast sender is dropped: emitted events are instead returned
by the operations. `Instant` is modelled as a `Nat` timestamp. -/
structure StateMachine where
  state : State
  prev_modifiers : ModifierState
  state_entered_at : Option Nat
deriving DecidableEq, Repr

/-- Embeds `StateMachine::new`. -/
def StateMachine.new : StateMachine :=
  { state := .Idle, prev_modifiers := default, state_entered_at := none }

/-- Embeds `StateMachine::is_rising_edge_control_command`. -/
def StateMachine.is_rising_edge_control_command
    (sm : StateMachine) (modifiers : ModifierState) : Bool :=
  modifiers.is_control_command
    && (!sm.prev_modifiers.control || !sm.prev_modifiers.command)

/-- Embeds `StateMachine::compute_from_idle`. -/
def StateMachine.compute_from_idle
    (sm : StateMachine) (modifiers : ModifierState) : State :=
  if sm.is_rising_edge_control_command modifiers then .AgentActive
  else if modifiers.is_control_option then .IntelligentActive
  else if modifiers.is_control_only then .DictationActive
  else .Idle

/-- Embeds `StateMachine::compute_from_dictation`. -/
def StateMachine.compute_from_dictation
    (_sm : StateMachine) (modifiers : ModifierState) : State :=
  if modifiers.is_control_option then .IntelligentActive
  else if !modifiers.control then .Idle
  else .DictationActive

/-- Embeds `StateMachine::compute_from_intelligent`. -/
def StateMachine.compute_from_intelligent
    (_sm : StateMachine) (modifiers : ModifierState) : State :=
  if !modifiers.control || !modifiers.option then .Idle
  else .IntelligentActive

/-- Embeds `StateMachine::compute_from_agent`. -/
def StateMachine.compute_from_agent
    (sm : StateMachine) (modifiers : ModifierState) : State :=
  if sm.is_rising_edge_control_command modifiers then .Idle
  else .AgentActive

/-- Embeds `StateMachine::compute_next_state`. -/
def StateMachine.compute_next_state
    (sm : StateMachine) (modifiers : ModifierState) : State :=
  match sm.state with
  | .Idle => sm.compute_from_idle modifiers
  | .DictationActive => sm.compute_from_dictation modifiers
  | .IntelligentActive => sm.compute_from_intelligent modifiers
  | .AgentActive => sm.compute_from_agent modifiers

/-- Embeds `StateMachine::emit_exit_event`: the event sent on the broadcast
channel for exiting `state`, as a list (empty when `Idle`, which has no
exit event). -/
def emit_exit_event (state : State) (duration_ms : Nat) : List StateEvent :=
  match state with
  | .Idle => []
  | .DictationActive => [.DictationComplete duration_ms]
  | .IntelligentActive => [.IntelligentRequestComplete duration_ms]
  | .AgentActive => [.AgentModeExited duration_ms]

/-- Embeds `StateMachine::emit_entry_event`. -/
def emit_entry_event (state : State) : List StateEvent :=
  match state with
  | .Idle => []
  | .DictationActive => [.DictationStarted]
  | .IntelligentActive => [.IntelligentStarted]
  | .AgentActive => [.AgentModeEntered]

/-- Embeds `StateMachine::transition_to`. `now` stands for `Instant::now()`
at the moment of the call; `duration_ms` is
`state_entered_at.map(|t| t.elapsed()).unwrap_or(0)`. Returns the updated
machine and the events sent on the broadcast channel, exit event first. -/
def StateMachine.transition_to
    (sm : StateMachine) (new_state : State) (now : Nat) :
    StateMachine × List StateEvent :=
  let old_state := sm.state
  let duration_ms :=
    match sm.state_entered_at with
    | some t => now - t
    | none => 0
  let exit_events := emit_exit_event old_state duration_ms
  let entered := if new_state ≠ State.Idle then some now else none
  ({ sm with state := new_state, state_entered_at := entered },
    exit_events ++ emit_entry_event new_state)

/-- Embeds `StateMachine::handle_modifier_change`. -/
def StateMachine.handle_modifier_change
    (sm : StateMachine) (modifiers : ModifierState) (now : Nat) :
    StateMachine × List StateEvent :=
  let old_state := sm.state
  let new_state := sm.compute_next_state modifiers
  let step := if new_state ≠ old_state then sm.transition_to new_state now
              else (sm, [])
  ({ step.1 with prev_modifiers := modifiers }, step.2)

/-- Runs the engine loop (`StateMachine::run` restricted to
`ModifierChanged` events) over a finite input sequence, each input paired
with the timestamp at which it is processed; collects all emitted events in
order. -/
def runMachine :
    StateMachine → List (ModifierState × Nat) → StateMachine × List StateEvent
  | sm, [] => (sm, [])
  | sm, (m, now) :: rest =>
      let step := sm.handle_modifier_change m now
      let tail := runMachine step.1 rest
      (tail.1, step.2 ++ tail.2)

/-- Engine states reachable from the initial machine by some sequence of
`handle_modifier_change` calls. -/
inductive Reachable : StateMachine → Prop where
  | init : Reachable StateMachine.new
  | step (sm : StateMachine) (m : ModifierState) (now : Nat) :
      Reachable sm → Reachable (sm.handle_modifier_change m now).1

/-- Modelled from the spec: the §4.1 rule table's "rising edge of
control+command", taken at the spec's words — "both keys pressed now AND at
least one of them was not pressed in the immediately preceding Modifier
State" (no condition on option). -/
def specRisingEdge (prev m : ModifierState) : Bool :=
  m.control && m.command && (!prev.control || !prev.command)

/-- Modelled from the spec: the §4.1 rule table taken at its words.
From Idle: rising edge of control+command → Agent; else control AND option
(and not command) → Intelligent; else control only → Dictation; else stay.
From Dictation: control AND option → Intelligent; control released → Idle;
otherwise stay. From Intelligent: control or option released → Idle.
From Agent: only a rising edge of control+command → Idle. -/
def specNextMode (s : State) (prev m : ModifierState) : State :=
  match s with
  | .Idle =>
      if specRisingEdge prev m then .AgentActive
      else if m.control && m.option && !m.command then .IntelligentActive
      else if m.control && !m.option && !m.command then .DictationActive
      else .Idle
  | .DictationActive =>
      if m.control && m.option then .IntelligentActive
      else if !m.control then .Idle
      else .DictationActive
  | .IntelligentActive =>
      if !m.control || !m.option then .Idle
      else .IntelligentActive
  | .AgentActive =>
      if specRisingEdge prev m then .Idle
      else .AgentActive

/-- Amended rule table: the spec's §4.1 table with the two predicates
tightened the way `hotkey/keys.rs` defines them — the control+command
rising edge additionally requires option not held, and the Dictation
upgrade to Intelligent additionally requires command not held. -/
def amendedNextMode (s : State) (prev m : ModifierState) : State :=
  match s with
  | .Idle =>
      if specRisingEdge prev m && !m.option then .AgentActive
      else if m.control && m.option && !m.command then .IntelligentActive
      else if m.control && !m.option && !m.command then .DictationActive
      else .Idle
  | .DictationActive =>
      if m.control && m.option && !m.command then .IntelligentActive
      else if !m.control then .Idle
      else .DictationActive
  | .IntelligentActive =>
      if !m.control || !m.option then .Idle
      else .IntelligentActive
  | .AgentActive =>
      if specRisingEdge prev m && !m.option then .Idle
      else .AgentActive

/-- Folds a rule table over a sequence of Modifier States, threading the
(mode, previous Modifier State) pair from (Idle-initial) start. -/
def foldRules (next : State → ModifierState → ModifierState → State) :
    State × ModifierState → List ModifierState → State × ModifierState
  | sp, [] => sp
  | (s, p), m :: rest => foldRules next (next s p m, m) rest

/-- Embeds `Mode` from `ipc/protocol.rs`. -/
inductive Mode where
  | Idle
  | Dictation
  | Intelligent
  | Agent
deriving DecidableEq, Repr

/-- Embeds `Mode::default()` (Rust: `Self::Idle`). -/
instance : Inhabited Mode := ⟨Mode.Idle⟩

/-- Embeds `impl From<State> for Mode` from `ipc/protocol.rs`. -/
def Mode.fromState : State → Mode
  | .Idle => .Idle
  | .DictationActive => .Dictation
  | .IntelligentActive => .Intelligent
  | .AgentActive => .Agent

/-- Embeds `Request` from `ipc/protocol.rs`. -/
inductive Request where
  | GetStatus
  | SetMode (mode : Mode)
  | Ping
  | Subscribe
deriving DecidableEq, Repr

/-- Embeds `DaemonStatus` from `ipc/protocol.rs`; `u64` seconds become
`Nat`. -/
structure DaemonStatus where
  version : String
  mode : Mode
  hotkey_registered : Bool
  uptime_secs : Nat
deriving DecidableEq, Repr

/-- Embeds `Response` from `ipc/protocol.rs`. -/
inductive Response where
  | Status (status : DaemonStatus)
  | ModeChange (mode : Mode) (active : Bool)
  | Pong
  | Subscribed
  | Error (code : String) (message : String)
deriving DecidableEq, Repr

/-- Embeds `Notification` from `ipc/protocol.rs`. -/
inductive Notification where
  | ModeChanged (mode : Mode) (previous : Mode)
  | StateEvent (event : StateEvent)
deriving DecidableEq, Repr

/-- Embeds `ServerState` from `ipc/server.rs`; `start_time : Instant`
becomes a `Nat` timestamp. -/
structure ServerState where
  status : DaemonStatus
  start_time : Nat
  current_state : State
deriving DecidableEq, Repr

/-- Embeds the `ServerState` value built in `Server::new`:
`DaemonStatus::default()` (whose version is the compile-time cargo package
version, passed here as a parameter), `start_time = Instant::now()`, and
`current_state = State::Idle`. -/
def ServerState.init (version : String) (start_time : Nat) : ServerState :=
  { status := { version := version, mode := default,
                hotkey_registered := false, uptime_secs := 0 },
    start_time := start_time,
    current_state := .Idle }

/-- Embeds `Server::set_state`: the write-lock update of the shared server
state when the engine's mode changes. -/
def set_state (st : ServerState) (state : State) : ServerState :=
  { st with
    current_state := state,
    status := { st.status with
                mode := Mode.fromState state,
                hotkey_registered := true } }

/-- Embeds `Server::process_request`. The Rust function mutates the shared
`ServerState` behind the write lock and returns `(Response, bool)`; the
embedding threads the state explicitly and takes `now` for
`start_time.elapsed()`. -/
def process_request (request : Request) (st : ServerState) (now : Nat) :
    Response × Bool × ServerState :=
  match request with
  | .Ping => (.Pong, false, st)
  | .GetStatus =>
      let st' := { st with
                   status := { st.status with
                               uptime_secs := now - st.start_time } }
      (.Status st'.status, false, st')
  | .SetMode mode =>
      let st' := { st with status := { st.status with mode := mode } }
      (.ModeChange mode (mode != Mode.Idle), false, st')
  | .Subscribe => (.Subscribed, true, st)

/-- Wire messages a connection handler can write: the code's
`send_message` is called with a `Response` in `handle_client`; the
`Notification` alternative exists in the protocol for push notifications. -/
inductive Msg where
  | resp (r : Response)
  | notif (n : Notification)
deriving DecidableEq, Repr

/-- Holds exactly when a wire message is a request/response `Response`
rather than a push `Notification`. -/
def Msg.isResp : Msg → Bool
  | .resp _ => true
  | .notif _ => false

/-- Ways the per-connection loop in `Server::handle_client` ends. -/
inductive ConnClose where
  /-- clean EOF while reading the 4-byte length prefix: `return Ok(())` -/
  | cleanEof
  /-- declared frame length exceeds 1 MiB: `return Ok(())`, no response -/
  | oversized
  /-- `serde_json::from_slice` failed: the `?` returns an error -/
  | parseError
  /-- EOF in the middle of a frame body: `read_exact` error propagated -/
  | shortRead
deriving DecidableEq, Repr

/-- Result of running `Server::handle_client` on a finite byte stream. -/
structure ConnResult where
  sent : List Msg
  subscribed : Bool
  close : ConnClose
  state : ServerState
deriving DecidableEq, Repr

/-- Embeds the `1024 * 1024` maximum frame size from
`Server::handle_client`. -/
def MAX_MESSAGE_SIZE : Nat := 1024 * 1024

/-- Embeds `u32::from_le_bytes` on the four prefix bytes. -/
def u32_from_le_bytes (b0 b1 b2 b3 : Nat) : Nat :=
  b0 % 256 + 256 * (b1 % 256) + 65536 * (b2 % 256) + 16777216 * (b3 % 256)

/-- Embeds `Server::handle_client`: the per-connection loop that reads a
4-byte little-endian length, rejects frames above 1 MiB by closing without
a response, reads the body, parses a `Request` (the external
`serde_json::from_slice` is the `parse` parameter), dispatches it through
`process_request`, and writes the length-prefixed response. The byte stream
is a finite `List Nat`; `now` stands for the clock during this connection;
`subd` is the `is_subscribed` flag. -/
def handle_client (parse : List Nat → Option Request)
    (st : ServerState) (now : Nat) (bytes : List Nat) (subd : Bool) :
    ConnResult :=
  match bytes with
  | b0 :: b1 :: b2 :: b3 :: rest =>
      let len := u32_from_le_bytes b0 b1 b2 b3
      if len > MAX_MESSAGE_SIZE then
        ⟨[], subd, .oversized, st⟩
      else if rest.length < len then
        ⟨[], subd, .shortRead, st⟩
      else
        match parse (rest.take len) with
        | none => ⟨[], subd, .parseError, st⟩
        | some request =>
            let step := process_request request st now
            let subd' := subd || step.2.1
            let tail := handle_client parse step.2.2 now (rest.drop len) subd'
            ⟨.resp step.1 :: tail.sent, tail.subscribed, tail.close,
              tail.state⟩
  | _ => ⟨[], subd, .cleanEof, st⟩
termination_by bytes.length
decreasing_by
  simp only [List.length_drop, List.length_cons]
  omega

/-- JSON values as produced and consumed by `serde_json` for the protocol
types: objects keep field order and may hold repeated keys, exactly as the
serializer writes them. -/
inductive Json where
  | bool (b : Bool)
  | num (n : Nat)
  | str (s : String)
  | obj (fields : List (String × Json))

/-- Reads a JSON string, as serde does when deserializing a `String`
field. -/
def Json.asStr : Json → Option String
  | .str s => some s
  | _ => none

/-- Reads a JSON boolean. -/
def Json.asBool : Json → Option Bool
  | .bool b => some b
  | _ => none

/-- Reads a JSON number as a `u64`-modelled `Nat`. -/
def Json.asNat : Json → Option Nat
  | .num n => some n
  | _ => none

/-- Models serde's internally-tagged deserialization step
(`#[serde(tag = "type")]`, the `TaggedContentVisitor` map visitor): scan
the object entries in order carrying the tag seen so far; a `"type"` key
records the variant tag (it must be a string), but a second `"type"` key is
serde's duplicate-field error and rejects the whole map, as does a missing
tag; every other entry is kept, in order, as the remaining content. -/
def taggedContentVisit :
    List (String × Json) → Option String →
      Option (String × List (String × Json))
  | [], none => none
  | [], some tag => some (tag, [])
  | (k, v) :: rest, acc =>
      if k = "type" then
        match acc with
        | some _ => none
        | none =>
            match v with
            | .str tag => taggedContentVisit rest (some tag)
            | _ => none
      else
        match taggedContentVisit rest acc with
        | some (tag, content) => some (tag, (k, v) :: content)
        | none => none

/-- Runs the tagged-content visitor on an object's entries with no tag seen
yet. -/
def extractTag (fields : List (String × Json)) :
    Option (String × List (String × Json)) :=
  taggedContentVisit fields none

/-- Serialization of `Mode` under
`#[serde(rename_all = "snake_case")]`: a bare string. -/
def Mode.encode : Mode → Json
  | .Idle => .str "idle"
  | .Dictation => .str "dictation"
  | .Intelligent => .str "intelligent"
  | .Agent => .str "agent"

/-- Deserialization of `Mode`. -/
def Mode.decode : Json → Option Mode
  | .str "idle" => some .Idle
  | .str "dictation" => some .Dictation
  | .str "intelligent" => some .Intelligent
  | .str "agent" => some .Agent
  | _ => none

/-- Serialization of `Request` under
`#[serde(tag = "type", rename_all = "snake_case")]`. -/
def Request.encode : Request → Json
  | .GetStatus => .obj [("type", .str "get_status")]
  | .SetMode mode => .obj [("type", .str "set_mode"), ("mode", mode.encode)]
  | .Ping => .obj [("type", .str "ping")]
  | .Subscribe => .obj [("type", .str "subscribe")]

/-- Deserialization of `Request`: extract the `"type"` tag, then read the
variant's fields from the remaining content by name. -/
def Request.decode (j : Json) : Option Request :=
  match j with
  | .obj fields =>
      match extractTag fields with
      | none => none
      | some (tag, content) =>
          match tag with
          | "get_status" => some .GetStatus
          | "set_mode" =>
              match List.lookup "mode" content with
              | some v =>
                  match Mode.decode v with
                  | some mode => some (.SetMode mode)
                  | none => none
              | none => none
          | "ping" => some .Ping
          | "subscribe" => some .Subscribe
          | _ => none
  | _ => none

/-- Serialization of `StateEvent` under
`#[serde(tag = "type", rename_all = "snake_case")]`. -/
def StateEvent.encode : StateEvent → Json
  | .DictationStarted => .obj [("type", .str "dictation_started")]
  | .DictationComplete d =>
      .obj [("type", .str "dictation_complete"), ("duration_ms", .num d)]
  | .IntelligentStarted => .obj [("type", .str "intelligent_started")]
  | .IntelligentRequestComplete d =>
      .obj [("type", .str "intelligent_request_complete"),
            ("duration_ms", .num d)]
  | .AgentModeEntered => .obj [("type", .str "agent_mode_entered")]
  | .AgentModeExited d =>
      .obj [("type", .str "agent_mode_exited"), ("duration_ms", .num d)]
  | .AudioCaptureStarted => .obj [("type", .str "audio_capture_started")]
  | .AudioCaptureStopped => .obj [("type", .str "audio_capture_stopped")]

/-- Deserialization of `StateEvent` from its internally-tagged content. -/
def StateEvent.decodeContent (content : List (String × Json)) (tag : String) :
    Option StateEvent :=
  match tag with
  | "dictation_started" => some .DictationStarted
  | "dictation_complete" =>
      match List.lookup "duration_ms" content with
      | some v =>
          match v.asNat with
          | some d => some (.DictationComplete d)
          | none => none
      | none => none
  | "intelligent_started" => some .IntelligentStarted
  | "intelligent_request_complete" =>
      match List.lookup "duration_ms" content with
      | some v =>
          match v.asNat with
          | some d => some (.IntelligentRequestComplete d)
          | none => none
      | none => none
  | "agent_mode_entered" => some .AgentModeEntered
  | "agent_mode_exited" =>
      match List.lookup "duration_ms" content with
      | some v =>
          match v.asNat with
          | some d => some (.AgentModeExited d)
          | none => none
      | none => none
  | "audio_capture_started" => some .AudioCaptureStarted
  | "audio_capture_stopped" => some .AudioCaptureStopped
  | _ => none

/-- Deserialization of `StateEvent`. -/
def StateEvent.decode (j : Json) : Option StateEvent :=
  match j with
  | .obj fields =>
      match extractTag fields with
      | none => none
      | some (tag, content) => StateEvent.decodeContent content tag
  | _ => none

/-- Serialization of `DaemonStatus`: a plain struct, fields in declaration
order. -/
def DaemonStatus.encodeFields (s : DaemonStatus) : List (String × Json) :=
  [("version", .str s.version), ("mode", s.mode.encode),
   ("hotkey_registered", .bool s.hotkey_registered),
   ("uptime_secs", .num s.uptime_secs)]

/-- Deserialization of `DaemonStatus` from object entries, field lookup by
name. -/
def DaemonStatus.decodeFields (content : List (String × Json)) :
    Option DaemonStatus :=
  match List.lookup "version" content with
  | none => none
  | some jv =>
      match jv.asStr with
      | none => none
      | some version =>
          match List.lookup "mode" content with
          | none => none
          | some jm =>
              match Mode.decode jm with
              | none => none
              | some mode =>
                  match List.lookup "hotkey_registered" content with
                  | none => none
                  | some jh =>
                      match jh.asBool with
                      | none => none
                      | some hotkey_registered =>
                          match List.lookup "uptime_secs" content with
                          | none => none
                          | some ju =>
                              match ju.asNat with
                              | none => none
                              | some uptime_secs =>
                                  some ⟨version, mode, hotkey_registered,
                                        uptime_secs⟩

/-- Serialization of `Response` under
`#[serde(tag = "type", rename_all = "snake_case")]`: for the newtype
variant `Status(DaemonStatus)` serde writes the tag entry followed by the
inner struct's fields. -/
def Response.encode : Response → Json
  | .Status s => .obj (("type", .str "status") :: s.encodeFields)
  | .ModeChange mode active =>
      .obj [("type", .str "mode_change"), ("mode", mode.encode),
            ("active", .bool active)]
  | .Pong => .obj [("type", .str "pong")]
  | .Subscribed => .obj [("type", .str "subscribed")]
  | .Error code message =>
      .obj [("type", .str "error"), ("code", .str code),
            ("message", .str message)]

/-- Deserialization of `Response`. -/
def Response.decode (j : Json) : Option Response :=
  match j with
  | .obj fields =>
      match extractTag fields with
      | none => none
      | some (tag, content) =>
          match tag with
          | "status" =>
              match DaemonStatus.decodeFields content with
              | some s => some (.Status s)
              | none => none
          | "mode_change" =>
              match List.lookup "mode" content with
              | none => none
              | some jm =>
                  match Mode.decode jm with
                  | none => none
                  | some mode =>
                      match List.lookup "active" content with
                      | none => none
                      | some ja =>
                          match ja.asBool with
                          | some active => some (.ModeChange mode active)
                          | none => none
          | "pong" => some .Pong
          | "subscribed" => some .Subscribed
          | "error" =>
              match List.lookup "code" content with
              | none => none
              | some jc =>
                  match jc.asStr with
                  | none => none
                  | some code =>
                      match List.lookup "message" content with
                      | none => none
                      | some jm =>
                          match jm.asStr with
                          | some message => some (.Error code message)
                          | none => none
          | _ => none
  | _ => none

/-- Serialization of `Notification` under
`#[serde(tag = "type", rename_all = "snake_case")]`: for the newtype
variant `StateEvent(StateEvent)` serde writes its own tag entry followed by
the entries of the inner (itself internally tagged) value, so the object
carries two `"type"` entries, outer first. -/
def Notification.encode : Notification → Json
  | .ModeChanged mode previous =>
      .obj [("type", .str "mode_changed"), ("mode", mode.encode),
            ("previous", previous.encode)]
  | .StateEvent ev =>
      .obj (("type", .str "state_event") ::
        (match ev.encode with
         | .obj inner => inner
         | other => [("", other)]))

/-- Deserialization of `Notification`: the tagged-content visitor selects
the outer variant; for `state_event` the remaining entries are deserialized
as a `StateEvent`. Since the visitor rejects a repeated `"type"` key, an
object produced by serializing `StateEvent(..)` (which carries two `"type"`
entries) never reaches the `state_event` branch: deserialization fails with
serde's duplicate-field error. -/
def Notification.decode (j : Json) : Option Notification :=
  match j with
  | .obj fields =>
      match extractTag fields with
      | none => none
      | some (tag, content) =>
          match tag with
          | "mode_changed" =>
              match List.lookup "mode" content with
              | none => none
              | some jm =>
                  match Mode.decode jm with
                  | none => none
                  | some mode =>
                      match List.lookup "previous" content with
                      | none => none
                      | some jp =>
                          match Mode.decode jp with
                          | some previous =>
                              some (.ModeChanged mode previous)
                          | none => none
          | "state_event" =>
              match StateEvent.decode (.obj content) with
              | some ev => some (.StateEvent ev)
              | none => none
          | _ => none
  | _ => none

instance : Fintype ModifierState :=
  Fintype.ofEquiv (Bool × Bool × Bool)
    { toFun := fun ⟨a, b, c⟩ => ⟨a, b, c⟩
      invFun := fun m => ⟨m.control, m.option, m.command⟩
      left_inv := fun ⟨_, _, _⟩ => rfl
      right_inv := fun ⟨_, _, _⟩ => rfl }

instance : Fintype State :=
  ⟨⟨{.Idle, .DictationActive, .IntelligentActive, .AgentActive}, by decide⟩,
   fun s => by cases s <;> decide⟩

/-! Helper lemmas about the engine. None of these is a claim theorem. -/

/-- Computing the next state never reads `state_entered_at`. -/
theorem compute_next_state_entered_irrel (s : State) (p : ModifierState)
    (e : Option Nat) (m : ModifierState) :
    (StateMachine.mk s p e).compute_next_state m
      = (StateMachine.mk s p none).compute_next_state m := rfl

/-- The state after `handle_modifier_change` is `compute_next_state`. -/
theorem handle_fst_state (sm : StateMachine) (m : ModifierState) (now : Nat) :
    (sm.handle_modifier_change m now).1.state = sm.compute_next_state m := by
  by_cases h : sm.compute_next_state m = sm.state
  · simp [StateMachine.handle_modifier_change, h]
  · simp [StateMachine.handle_modifier_change, StateMachine.transition_to, h]

/-- `handle_modifier_change` stores the new modifiers as
`prev_modifiers`. -/
theorem handle_fst_prev (sm : StateMachine) (m : ModifierState) (now : Nat) :
    (sm.handle_modifier_change m now).1.prev_modifiers = m := by
  by_cases h : sm.compute_next_state m = sm.state
  · simp [StateMachine.handle_modifier_change, h]
  · simp [StateMachine.handle_modifier_change, StateMachine.transition_to, h]

/-- The rule table actually implemented by `compute_next_state` is the
amended table (finite check over all 256 configurations). -/
theorem compute_matches_amended_table :
    ∀ (s : State) (p m : ModifierState),
      (StateMachine.mk s p none).compute_next_state m
        = amendedNextMode s p m := by decide

/-- Version of `compute_matches_amended_table` for an arbitrary machine. -/
theorem compute_eq_amended (sm : StateMachine) (m : ModifierState) :
    sm.compute_next_state m
      = amendedNextMode sm.state sm.prev_modifiers m := by
  obtain ⟨s, p, e⟩ := sm
  rw [compute_next_state_entered_irrel]
  exact compute_matches_amended_table s p m

/-- One engine step always lands in a configuration that is stable under
re-sending the same modifiers, except the configuration (Idle, control-only
as previous modifiers), which re-enters Dictation (finite check). -/
theorem step_stable :
    ∀ (s : State) (p m : ModifierState),
      ((StateMachine.mk ((StateMachine.mk s p none).compute_next_state m)
          m none).compute_next_state m
        = (StateMachine.mk s p none).compute_next_state m)
      ∨ ((StateMachine.mk s p none).compute_next_state m = State.Idle
          ∧ m.is_control_only = true) := by decide

/-- Every reachable machine is stable under re-sending its last-observed
modifiers, except in the (Idle, control-only) configuration. -/
theorem reachable_stable (sm : StateMachine) (h : Reachable sm) :
    (sm.compute_next_state sm.prev_modifiers = sm.state)
    ∨ (sm.state = State.Idle
        ∧ sm.prev_modifiers.is_control_only = true) := by
  induction h with
  | init => left; decide
  | step sm m now _ _ =>
      rw [handle_fst_prev, handle_fst_state]
      have hmk : (sm.handle_modifier_change m now).1.compute_next_state m
          = (StateMachine.mk ((sm.handle_modifier_change m now).1.state)
              ((sm.handle_modifier_change m now).1.prev_modifiers)
              none).compute_next_state m := rfl
      rw [hmk, handle_fst_prev, handle_fst_state]
      obtain ⟨s, p, e⟩ := sm
      rw [compute_next_state_entered_irrel]
      exact step_stable s p m

/-- Relates the engine loop to folding the amended rule table: the mode
evolution depends only on the modifier sequence. -/
theorem runMachine_state_eq_fold (seq : List (ModifierState × Nat)) :
    ∀ sm : StateMachine,
      (runMachine sm seq).1.state
        = (foldRules amendedNextMode (sm.state, sm.prev_modifiers)
            (seq.map Prod.fst)).1 := by
  induction seq with
  | nil => intro sm; rfl
  | cons mn rest ih =>
      intro sm
      obtain ⟨m, now⟩ := mn
      show (runMachine (sm.handle_modifier_change m now).1 rest).1.state = _
      rw [ih, handle_fst_state, handle_fst_prev, compute_eq_amended]
      rfl

/-- The invariant `state_entered_at = some _ iff state is not Idle` is
preserved by every engine step. -/
theorem handle_preserves_entered_invariant
    (sm : StateMachine) (m : ModifierState) (now : Nat)
    (h : sm.state_entered_at.isSome = true ↔ sm.state ≠ State.Idle) :
    (sm.handle_modifier_change m now).1.state_entered_at.isSome = true
      ↔ (sm.handle_modifier_change m now).1.state ≠ State.Idle := by
  by_cases hc : sm.compute_next_state m = sm.state
  · simpa [StateMachine.handle_modifier_change, hc] using h
  · by_cases hi : sm.compute_next_state m = State.Idle
    · have h2 : ¬(State.Idle = sm.state) := fun hh => hc (hi.trans hh)
      simp [StateMachine.handle_modifier_change, StateMachine.transition_to,
        hc, hi, h2]
    · simp [StateMachine.handle_modifier_change, StateMachine.transition_to,
        hc, hi]

/-! Claim theorems. -/

/-- C2 counterexample: from Idle with empty previous modifiers (so
control+command were not both held), the Modifier State with all three
keys held leaves the engine in Idle, not Agent as the claim states —
`is_control_command` requires option not held, so none of the Idle rules
match. -/
theorem claim2_counterexample :
    ((StateMachine.mk .Idle ⟨false, false, false⟩ none).handle_modifier_change
        ⟨true, true, true⟩ 0).1.state = State.Idle
    ∧ State.Idle ≠ State.AgentActive := by decide

/-- C2 (amended): when the engine is in Idle and receives a Modifier State
with control, option and command all held (and the preceding Modifier State
did not have both control and command held), the next Mode is Idle, not
Agent: every Idle rule's predicate excludes the extra key. -/
theorem claim2_amended_thm (p : ModifierState) (e : Option Nat) (now : Nat)
    (_h : ¬(p.control = true ∧ p.command = true)) :
    ((StateMachine.mk .Idle p e).handle_modifier_change
        ⟨true, true, true⟩ now).1.state = State.Idle := by
  rw [handle_fst_state, compute_next_state_entered_irrel]
  exact (by decide :
    ∀ q : ModifierState,
      (StateMachine.mk .Idle q none).compute_next_state ⟨true, true, true⟩
        = State.Idle) p

/-- C2 witness: the amended theorem applied at the empty previous modifier
state. -/
theorem claim2_witness :
    (¬((false = true) ∧ (false = true)))
    ∧ ((StateMachine.mk .Idle ⟨false, false, false⟩ none).handle_modifier_change
        ⟨true, true, true⟩ 0).1.state = State.Idle :=
  ⟨by decide, claim2_amended_thm ⟨false, false, false⟩ none 0 (by decide)⟩

/-- C3 counterexample: on the one-element sequence holding all three
modifiers, the engine stays Idle while folding the spec's §4.1 rule table
(whose rising edge does not exclude option) yields Agent. -/
theorem claim3_counterexample :
    (runMachine StateMachine.new [(⟨true, true, true⟩, 0)]).1.state
        = State.Idle
    ∧ (foldRules specNextMode (State.Idle, default)
        [⟨true, true, true⟩]).1 = State.AgentActive
    ∧ State.Idle ≠ State.AgentActive := by decide

/-- C3 (amended): for every finite input sequence, the engine's final Mode
equals the fold of the amended rule table (the §4.1 table with the
control+command rising edge requiring option not held and the Dictation
upgrade requiring command not held) over the modifier sequence from Idle;
and two runs on the identical sequence produce the identical final Mode
and the identical emitted event sequence. -/
theorem claim3_amended_thm :
    (∀ seq : List (ModifierState × Nat),
      (runMachine StateMachine.new seq).1.state
        = (foldRules amendedNextMode (State.Idle, default)
            (seq.map Prod.fst)).1)
    ∧ (∀ s1 s2 : List (ModifierState × Nat), s1 = s2 →
        runMachine StateMachine.new s1 = runMachine StateMachine.new s2) :=
  ⟨fun seq => runMachine_state_eq_fold seq StateMachine.new,
   fun _ _ h => h ▸ rfl⟩

/-- C3 witness: the amended theorem applied to the Scenario 3 sequence
(enter Agent, release all, toggle off). -/
theorem claim3_witness :
    ((runMachine StateMachine.new
        [(⟨true, false, true⟩, 0), (⟨false, false, false⟩, 1),
         (⟨true, false, true⟩, 5)]).1.state
      = (foldRules amendedNextMode (State.Idle, default)
          [⟨true, false, true⟩, ⟨false, false, false⟩,
           ⟨true, false, true⟩]).1)
    ∧ runMachine StateMachine.new [(⟨true, false, true⟩, 0)]
        = runMachine StateMachine.new [(⟨true, false, true⟩, 0)] :=
  ⟨claim3_amended_thm.1
      [(⟨true, false, true⟩, 0), (⟨false, false, false⟩, 1),
       (⟨true, false, true⟩, 5)],
   claim3_amended_thm.2 [(⟨true, false, true⟩, 0)]
      [(⟨true, false, true⟩, 0)] rfl⟩

/-- C4 counterexample: in Agent with nothing previously held, the Modifier
State with all three keys held is a rising edge of control+command in the
claim's sense (both held now, command not held before), yet the engine
stays in Agent — `is_control_command` requires option not held. -/
theorem claim4_counterexample :
    ((StateMachine.mk .AgentActive ⟨false, false, false⟩
        (some 0)).handle_modifier_change ⟨true, true, true⟩ 1).1.state
      = State.AgentActive
    ∧ State.AgentActive ≠ State.Idle := by decide

/-- C4 (amended): whenever the engine is in Agent mode, a new Modifier
State sets the Mode to Idle exactly when control and command are held now,
option is not held, and at least one of control/command was not held in the
previous Modifier State; every other Modifier State leaves the Mode as
Agent. -/
theorem claim4_amended_thm (sm : StateMachine) (m : ModifierState)
    (now : Nat) (h : sm.state = State.AgentActive) :
    (sm.handle_modifier_change m now).1.state
      = (if m.control && m.command && !m.option
            && (!sm.prev_modifiers.control || !sm.prev_modifiers.command)
         then State.Idle else State.AgentActive) := by
  obtain ⟨s, p, e⟩ := sm
  cases h
  rw [handle_fst_state, compute_next_state_entered_irrel]
  exact (by decide :
    ∀ q mm : ModifierState,
      (StateMachine.mk .AgentActive q none).compute_next_state mm
        = (if mm.control && mm.command && !mm.option
              && (!q.control || !q.command)
           then State.Idle else State.AgentActive)) p m

/-- C4 witness: a fresh control+command press (option up) toggles Agent
off. -/
theorem claim4_witness :
    ((StateMachine.mk .AgentActive ⟨false, false, false⟩
        (some 0)).handle_modifier_change ⟨true, false, true⟩ 3).1.state
      = State.Idle :=
  (claim4_amended_thm
      (StateMachine.mk .AgentActive ⟨false, false, false⟩ (some 0))
      ⟨true, false, true⟩ 3 rfl).trans (by decide)

/-- C6 counterexample: in Dictation, a Modifier State with control AND
option held (but also command) does not upgrade to Intelligent — it stays
Dictation, because `is_control_option` requires command not held. -/
theorem claim6_counterexample :
    ((StateMachine.mk .DictationActive ⟨true, false, false⟩
        (some 0)).handle_modifier_change ⟨true, true, true⟩ 1).1.state
      = State.DictationActive
    ∧ State.DictationActive ≠ State.IntelligentActive := by decide

/-- C6 (amended): in Dictation, a new Modifier State with control and
option held and command not held upgrades to Intelligent; otherwise if
control is not held the Mode becomes Idle; otherwise it stays
Dictation. -/
theorem claim6_amended_thm (sm : StateMachine) (m : ModifierState)
    (now : Nat) (h : sm.state = State.DictationActive) :
    (sm.handle_modifier_change m now).1.state
      = (if m.control && m.option && !m.command then State.IntelligentActive
         else if !m.control then State.Idle
         else State.DictationActive) := by
  obtain ⟨s, p, e⟩ := sm
  cases h
  rw [handle_fst_state, compute_next_state_entered_irrel]
  exact (by decide :
    ∀ q mm : ModifierState,
      (StateMachine.mk .DictationActive q none).compute_next_state mm
        = (if mm.control && mm.option && !mm.command
           then State.IntelligentActive
           else if !mm.control then State.Idle
           else State.DictationActive)) p m

/-- C6 witness: adding option while dictating upgrades to Intelligent. -/
theorem claim6_witness :
    ((StateMachine.mk .DictationActive ⟨true, false, false⟩
        (some 0)).handle_modifier_change ⟨true, true, false⟩ 4).1.state
      = State.IntelligentActive :=
  (claim6_amended_thm
      (StateMachine.mk .DictationActive ⟨true, false, false⟩ (some 0))
      ⟨true, true, false⟩ 4 rfl).trans (by decide)

/-- C7 counterexample: the engine state reached by entering Intelligent and
then releasing option (Mode Idle, previous modifiers control-only) is
reachable, and re-sending the identical control-only Modifier State changes
the Mode to Dictation and emits `DictationStarted`. -/
theorem claim7_counterexample :
    (runMachine StateMachine.new
        [(⟨true, true, false⟩, 0), (⟨true, false, false⟩, 1)]).1.state
      = State.Idle
    ∧ (runMachine StateMachine.new
        [(⟨true, true, false⟩, 0), (⟨true, false, false⟩, 1)]).1.prev_modifiers
      = ⟨true, false, false⟩
    ∧ Reachable (runMachine StateMachine.new
        [(⟨true, true, false⟩, 0), (⟨true, false, false⟩, 1)]).1
    ∧ ((runMachine StateMachine.new
        [(⟨true, true, false⟩, 0), (⟨true, false, false⟩, 1)]).1.handle_modifier_change
          ⟨true, false, false⟩ 2).1.state = State.DictationActive
    ∧ ((runMachine StateMachine.new
        [(⟨true, true, false⟩, 0), (⟨true, false, false⟩, 1)]).1.handle_modifier_change
          ⟨true, false, false⟩ 2).2 = [StateEvent.DictationStarted]
    ∧ State.DictationActive ≠ State.Idle :=
  ⟨by decide, by decide,
   Reachable.step _ ⟨true, false, false⟩ 1
     (Reachable.step _ ⟨true, true, false⟩ 0 Reachable.init),
   by decide, by decide, by decide⟩

/-- C7 (amended): for every reachable engine state except those where the
Mode is Idle and the previously observed Modifier State is control-only
(where re-sending re-enters Dictation), calling `handle_modifier_change`
with a Modifier State equal to the previously observed one leaves the
machine unchanged and emits no event. -/
theorem claim7_amended_thm (sm : StateMachine) (hr : Reachable sm)
    (now : Nat)
    (h : ¬(sm.state = State.Idle
            ∧ sm.prev_modifiers.is_control_only = true)) :
    sm.handle_modifier_change sm.prev_modifiers now = (sm, []) := by
  rcases reachable_stable sm hr with heq | hbad
  · obtain ⟨s, p, e⟩ := sm
    simp only [StateMachine.handle_modifier_change, heq]
    simp
  · exact absurd hbad h

/-- C7 witness: the amended theorem applied to the reachable state after
entering Dictation; re-sending the held control key is a no-op. -/
theorem claim7_witness :
    (¬((StateMachine.new.handle_modifier_change ⟨true, false, false⟩ 0).1.state
          = State.Idle
        ∧ (StateMachine.new.handle_modifier_change
            ⟨true, false, false⟩ 0).1.prev_modifiers.is_control_only = true))
    ∧ ((StateMachine.new.handle_modifier_change ⟨true, false, false⟩
          0).1.handle_modifier_change
        (StateMachine.new.handle_modifier_change
          ⟨true, false, false⟩ 0).1.prev_modifiers 7
      = ((StateMachine.new.handle_modifier_change ⟨true, false, false⟩ 0).1,
         [])) :=
  ⟨by decide,
   claim7_amended_thm _
     (Reachable.step _ ⟨true, false, false⟩ 0 Reachable.init) 7 (by decide)⟩

/-- C5: on every call of `handle_modifier_change` in which the Mode
actually changes, the engine emits first the exit event of the old Mode
carrying the dwell duration (elapsed since that Mode's entry instant; the
exit event is skipped entirely when the old Mode is Idle), then updates the
Mode and resets or clears the entry instant, then emits the entry event of
the new Mode (skipped when the new Mode is Idle) — at most 2 events per
change. Stated under the documented invariant that `state_entered_at` is
`some` exactly when the Mode is not Idle. -/
theorem claim5_thm (sm : StateMachine) (m : ModifierState) (now : Nat)
    (hinv : sm.state_entered_at.isSome = true ↔ sm.state ≠ State.Idle)
    (hch : sm.compute_next_state m ≠ sm.state) :
    (sm.handle_modifier_change m now).1.state = sm.compute_next_state m
    ∧ (sm.handle_modifier_change m now).1.state_entered_at
        = (if sm.compute_next_state m = State.Idle then none else some now)
    ∧ (sm.state = State.Idle →
        (sm.handle_modifier_change m now).2
          = emit_entry_event (sm.compute_next_state m))
    ∧ (∀ t, sm.state_entered_at = some t →
        (sm.handle_modifier_change m now).2
          = emit_exit_event sm.state (now - t)
              ++ emit_entry_event (sm.compute_next_state m))
    ∧ (sm.handle_modifier_change m now).2.length ≤ 2 := by
  have hne : ¬ (sm.compute_next_state m = sm.state) := hch
  refine ⟨handle_fst_state sm m now, ?_, ?_, ?_, ?_⟩
  · by_cases hi : sm.compute_next_state m = State.Idle
    · have h2 : ¬ (State.Idle = sm.state) := fun hh => hne (hi.trans hh)
      simp [StateMachine.handle_modifier_change, StateMachine.transition_to,
        hne, hi, h2]
    · simp [StateMachine.handle_modifier_change, StateMachine.transition_to,
        hne, hi]
  · intro h0
    have hz : sm.state_entered_at = none := by
      cases he : sm.state_entered_at with
      | none => rfl
      | some t => exact absurd h0 (hinv.mp (by simp [he]))
    have h3 : ¬ (sm.compute_next_state m = State.Idle) := h0 ▸ hch
    simp [StateMachine.handle_modifier_change, StateMachine.transition_to,
      hne, h0, hz, h3, emit_exit_event]
  · intro t ht
    simp [StateMachine.handle_modifier_change, StateMachine.transition_to,
      hne, ht]
  · have e1 : ∀ s d, (emit_exit_event s d).length ≤ 1 := by
      intro s d; cases s <;> simp [emit_exit_event]
    have e2 : ∀ s, (emit_entry_event s).length ≤ 1 := by
      intro s; cases s <;> simp [emit_entry_event]
    simp only [StateMachine.handle_modifier_change, StateMachine.transition_to]
    rw [if_pos hch]
    simp only [List.length_append]
    exact Nat.add_le_add (e1 _ _) (e2 _)

/-- C5 witness: Dictation entered at 5 upgrading to Intelligent at 12 emits
`DictationComplete` with dwell 7 then `IntelligentStarted`, and records the
new entry instant 12. -/
theorem claim5_witness :
    ((StateMachine.mk .DictationActive ⟨true, false, false⟩
        (some 5)).handle_modifier_change ⟨true, true, false⟩ 12).2
      = [StateEvent.DictationComplete 7, StateEvent.IntelligentStarted]
    ∧ ((StateMachine.mk .DictationActive ⟨true, false, false⟩
        (some 5)).handle_modifier_change ⟨true, true, false⟩
          12).1.state_entered_at
      = some 12 := by
  have h := claim5_thm
    (StateMachine.mk .DictationActive ⟨true, false, false⟩ (some 5))
    ⟨true, true, false⟩ 12 (by decide) (by decide)
  exact ⟨(h.2.2.2.1 5 rfl).trans (by decide), h.2.1.trans (by decide)⟩

/-- C8: refuted on the code for `Notification.StateEvent`. Every `Request`,
every `Response` and every `Notification.ModeChanged` value round-trips
through the wire encoding, but serializing `Notification.StateEvent ev`
nests one internally-tagged enum inside another: the writer emits two
`"type"` keys and serde's internally-tagged deserializer rejects the
repeated tag key as a duplicate field, so deserializing the encoding of any
`StateEvent` notification fails — evaluated concretely at
`StateEvent DictationStarted`. -/
theorem claim8_thm :
    (∀ r : Request, Request.decode r.encode = some r)
    ∧ (∀ r : Response, Response.decode r.encode = some r)
    ∧ (∀ m p : Mode,
        Notification.decode (Notification.ModeChanged m p).encode
          = some (.ModeChanged m p))
    ∧ (∀ e : StateEvent,
        Notification.decode (Notification.StateEvent e).encode = none)
    ∧ Notification.decode
        (Notification.StateEvent StateEvent.DictationStarted).encode
      = none := by
  refine ⟨?_, ?_, ?_, ?_, rfl⟩
  · intro r
    cases r with
    | SetMode m => cases m <;> rfl
    | _ => rfl
  · intro r
    cases r with
    | Status s => obtain ⟨v, mo, hk, up⟩ := s; cases mo <;> rfl
    | ModeChange m a => cases m <;> rfl
    | _ => rfl
  · intro m p
    cases m <;> cases p <;> rfl
  · intro e
    cases e <;> rfl

/-- C10: processing `SetMode{mode}` returns `ModeChange` with
`active = (mode ≠ Idle)`, changes only the `mode` field of the shared
status, and leaves `version`, `hotkey_registered`, `uptime_secs`,
`start_time` and the tracked `current_state` unchanged. -/
theorem claim10_thm (m : Mode) (st : ServerState) (now : Nat) :
    process_request (.SetMode m) st now
      = (.ModeChange m (m != Mode.Idle), false,
         { st with status := { st.status with mode := m } })
    ∧ (process_request (.SetMode m) st now).2.2.status.version
        = st.status.version
    ∧ (process_request (.SetMode m) st now).2.2.status.hotkey_registered
        = st.status.hotkey_registered
    ∧ (process_request (.SetMode m) st now).2.2.status.uptime_secs
        = st.status.uptime_secs
    ∧ (process_request (.SetMode m) st now).2.2.start_time = st.start_time
    ∧ (process_request (.SetMode m) st now).2.2.current_state
        = st.current_state :=
  ⟨rfl, rfl, rfl, rfl, rfl, rfl⟩

/-- A connection whose byte stream is exhausted closes cleanly having
written nothing further. -/
theorem handle_client_nil (parse : List Nat → Option Request)
    (st : ServerState) (now : Nat) (subd : Bool) :
    handle_client parse st now [] subd = ⟨[], subd, .cleanEof, st⟩ := by
  simp [handle_client]

/-- A frame whose 4-byte little-endian prefix declares more than 1 MiB
closes the connection with no response written. -/
theorem handle_client_oversized (parse : List Nat → Option Request)
    (st : ServerState) (now : Nat) (b0 b1 b2 b3 : Nat) (rest : List Nat)
    (subd : Bool) (h : u32_from_le_bytes b0 b1 b2 b3 > MAX_MESSAGE_SIZE) :
    handle_client parse st now (b0 :: b1 :: b2 :: b3 :: rest) subd
      = ⟨[], subd, .oversized, st⟩ := by
  rw [handle_client.eq_def]
  simp [h]

/-- A frame within the size bound whose payload parses is dispatched: its
response is written and the loop continues on the remaining bytes. -/
theorem handle_client_accepts (parse : List Nat → Option Request)
    (st : ServerState) (now : Nat) (b0 b1 b2 b3 : Nat)
    (payload extra : List Nat) (request : Request) (subd : Bool)
    (hle : u32_from_le_bytes b0 b1 b2 b3 ≤ MAX_MESSAGE_SIZE)
    (hlen : payload.length = u32_from_le_bytes b0 b1 b2 b3)
    (hp : parse payload = some request) :
    handle_client parse st now (b0 :: b1 :: b2 :: b3 :: (payload ++ extra))
        subd
      = ⟨Msg.resp (process_request request st now).1
          :: (handle_client parse (process_request request st now).2.2 now
              extra (subd || (process_request request st now).2.1)).sent,
         (handle_client parse (process_request request st now).2.2 now
            extra (subd || (process_request request st now).2.1)).subscribed,
         (handle_client parse (process_request request st now).2.2 now
            extra (subd || (process_request request st now).2.1)).close,
         (handle_client parse (process_request request st now).2.2 now
            extra (subd || (process_request request st now).2.1)).state⟩ := by
  rw [handle_client.eq_def]
  have h1 : ¬ (u32_from_le_bytes b0 b1 b2 b3 > MAX_MESSAGE_SIZE) := by omega
  have h2 : ¬ ((payload ++ extra).length < u32_from_le_bytes b0 b1 b2 b3) := by
    simp [List.length_append]
    omega
  have h3 : (payload ++ extra).take (u32_from_le_bytes b0 b1 b2 b3)
      = payload := by
    rw [← hlen]
    exact List.take_left payload extra
  have h4 : (payload ++ extra).drop (u32_from_le_bytes b0 b1 b2 b3)
      = extra := by
    rw [← hlen]
    exact List.drop_left payload extra
  simp only [h1, if_false, h2, h3, h4, hp]

/-- Every message the connection loop ever writes is a `Response`
(`send_message` is only reached with the response of a dispatched
request), proved by induction on a bound on the stream length. -/
theorem sent_all_resp (n : Nat) :
    ∀ (parse : List Nat → Option Request) (st : ServerState) (now : Nat)
      (bytes : List Nat) (subd : Bool), bytes.length ≤ n →
      ((handle_client parse st now bytes subd).sent.all Msg.isResp)
        = true := by
  induction n with
  | zero =>
      intro parse st now bytes subd h
      have hb : bytes = [] := List.eq_nil_of_length_eq_zero (Nat.le_zero.mp h)
      subst hb
      simp [handle_client]
  | succ n ih =>
      intro parse st now bytes subd h
      match bytes with
      | [] => simp [handle_client]
      | [b0] => simp [handle_client]
      | [b0, b1] => simp [handle_client]
      | [b0, b1, b2] => simp [handle_client]
      | b0 :: b1 :: b2 :: b3 :: rest =>
          rw [handle_client.eq_def]
          by_cases h1 : u32_from_le_bytes b0 b1 b2 b3 > MAX_MESSAGE_SIZE
          · simp [h1]
          · by_cases h2 : rest.length < u32_from_le_bytes b0 b1 b2 b3
            · simp [h1, h2]
            · cases hp : parse (rest.take (u32_from_le_bytes b0 b1 b2 b3)) with
              | none => simp [h1, h2, hp]
              | some request =>
                  simp only [h1, if_false, h2, hp]
                  simp only [List.all_cons, Msg.isResp, Bool.true_and]
                  apply ih
                  have : rest.length ≤ n + 1 - 4 := by
                    simp [List.length_cons] at h
                    omega
                  calc (rest.drop (u32_from_le_bytes b0 b1 b2 b3)).length
                      ≤ rest.length := by simp [List.length_drop]
                    _ ≤ n := by omega

/-- C9: a frame whose 4-byte little-endian length prefix declares more
than 1 MiB closes the connection immediately with no response written, and
a frame of at most 1 MiB is accepted — its body is read, parsed and
dispatched, and its response written. -/
theorem claim9_thm (parse : List Nat → Option Request) (st : ServerState)
    (now : Nat) (b0 b1 b2 b3 : Nat) (subd : Bool) :
    (∀ rest : List Nat, u32_from_le_bytes b0 b1 b2 b3 > MAX_MESSAGE_SIZE →
      handle_client parse st now (b0 :: b1 :: b2 :: b3 :: rest) subd
        = ⟨[], subd, .oversized, st⟩)
    ∧ (∀ (payload extra : List Nat) (request : Request),
        u32_from_le_bytes b0 b1 b2 b3 ≤ MAX_MESSAGE_SIZE →
        payload.length = u32_from_le_bytes b0 b1 b2 b3 →
        parse payload = some request →
        handle_client parse st now
            (b0 :: b1 :: b2 :: b3 :: (payload ++ extra)) subd
          = ⟨Msg.resp (process_request request st now).1
              :: (handle_client parse (process_request request st now).2.2
                  now extra
                  (subd || (process_request request st now).2.1)).sent,
             (handle_client parse (process_request request st now).2.2 now
                extra
                (subd || (process_request request st now).2.1)).subscribed,
             (handle_client parse (process_request request st now).2.2 now
                extra (subd || (process_request request st now).2.1)).close,
             (handle_client parse (process_request request st now).2.2 now
                extra (subd || (process_request request st now).2.1)).state⟩) :=
  ⟨fun rest h => handle_client_oversized parse st now b0 b1 b2 b3 rest subd h,
   fun payload extra request hle hlen hp =>
     handle_client_accepts parse st now b0 b1 b2 b3 payload extra request
       subd hle hlen hp⟩

/-- C9 witness: the prefix declaring 2,000,000 bytes disconnects with no
response; the prefix declaring 1 byte is accepted and answered. -/
theorem claim9_witness :
    (u32_from_le_bytes 128 132 30 0 > MAX_MESSAGE_SIZE)
    ∧ handle_client (fun _ => some Request.Ping) (ServerState.init "0.1.0" 0)
        0 [128, 132, 30, 0] false
      = ⟨[], false, .oversized, ServerState.init "0.1.0" 0⟩
    ∧ (u32_from_le_bytes 1 0 0 0 ≤ MAX_MESSAGE_SIZE)
    ∧ handle_client (fun _ => some Request.Ping) (ServerState.init "0.1.0" 0)
        0 [1, 0, 0, 0, 9] false
      = ⟨[Msg.resp Response.Pong], false, .cleanEof,
         ServerState.init "0.1.0" 0⟩ := by
  refine ⟨by decide,
    (claim9_thm (fun _ => some Request.Ping) (ServerState.init "0.1.0" 0)
        0 128 132 30 0 false).1 [] (by decide),
    by decide, ?_⟩
  have h := (claim9_thm (fun _ => some Request.Ping)
      (ServerState.init "0.1.0" 0) 0 1 0 0 0 false).2 [9] [] .Ping
      (by decide) rfl rfl
  rw [handle_client_nil] at h
  exact h

/-- C1: refuted on the code. The connection loop never writes anything but
request responses — `is_subscribed` is set and never read, and the server's
`event_rx` is never consumed — so a subscribed connection receives no
`mode_changed` notification when the engine transitions: the concrete
scenario (client subscribes, then the shared state is updated for an
Idle→Dictation transition via `set_state`) writes only the `Subscribed`
response to the connection. -/
theorem claim1_thm :
    (∀ (parse : List Nat → Option Request) (st : ServerState) (now : Nat)
       (bytes : List Nat) (subd : Bool),
      ((handle_client parse st now bytes subd).sent.all Msg.isResp) = true)
    ∧ handle_client (fun _ => some Request.Subscribe)
        (ServerState.init "0.1.0" 0) 0 [1, 0, 0, 0, 42] false
      = ⟨[Msg.resp Response.Subscribed], true, .cleanEof,
         ServerState.init "0.1.0" 0⟩
    ∧ set_state (ServerState.init "0.1.0" 0) .DictationActive
      = { status := { version := "0.1.0", mode := .Dictation,
                      hotkey_registered := true, uptime_secs := 0 },
          start_time := 0, current_state := .DictationActive } := by
  refine ⟨fun parse st now bytes subd =>
    sent_all_resp bytes.length parse st now bytes subd le_rfl, ?_, rfl⟩
  have h := handle_client_accepts (fun _ => some Request.Subscribe)
    (ServerState.init "0.1.0" 0) 0 1 0 0 0 [42] [] .Subscribe false
    (by decide) rfl rfl
  rw [handle_client_nil] at h
  exact h

end SecondBrain
